import Mathlib

/-!
Verification development for the QLogger asynchronous log writer
(`QLoggerWriter.cpp`).  The C++ source is shallowly embedded: each member
function becomes a pure Lean function, ambient effects (the file system,
the clock, the external `7z` process) become explicit fields of an
environment record, and the mutable members of `QLoggerWriter` become a
state record that the embedded functions transform.
-/

namespace QLogger

/-- Decimal digit to character, modelling one digit of `QString::number`. -/
def digitChar : Nat → Char
  | 0 => '0'
  | 1 => '1'
  | 2 => '2'
  | 3 => '3'
  | 4 => '4'
  | 5 => '5'
  | 6 => '6'
  | 7 => '7'
  | 8 => '8'
  | _ => '9'

/-- Inverse digit table used only in proofs about `natRepr`. -/
def charToDigit (c : Char) : Nat :=
  if c = '1' then 1
  else if c = '2' then 2
  else if c = '3' then 3
  else if c = '4' then 4
  else if c = '5' then 5
  else if c = '6' then 6
  else if c = '7' then 7
  else if c = '8' then 8
  else if c = '9' then 9
  else 0

/-- Fuelled digit expansion of a natural number, most significant digit
first.  Fuel `n` suffices for the number `n` itself because the argument
shrinks by a factor of ten each step. -/
def natReprAux : Nat → Nat → List Char
  | 0, _ => []
  | _ + 1, 0 => []
  | fuel + 1, n + 1 => natReprAux fuel ((n + 1) / 10) ++ [digitChar ((n + 1) % 10)]

/-- Decimal rendering of a natural number, modelling `QString::number`
on the non-negative integers. -/
def natRepr (n : Nat) : String := if n = 0 then "0" else ⟨natReprAux n n⟩

/-- Value of a most-significant-first digit string; left inverse of
`natReprAux` used to prove injectivity of `natRepr`. -/
def digitsVal (l : List Char) : Nat := l.foldl (fun a c => a * 10 + charToDigit c) 0

theorem charToDigit_digitChar {d : Nat} (h : d < 10) : charToDigit (digitChar d) = d := by
  interval_cases d <;> decide

theorem digitsVal_append (A : List Char) (c : Char) :
    digitsVal (A ++ [c]) = digitsVal A * 10 + charToDigit c := by
  unfold digitsVal
  rw [List.foldl_append]
  rfl

theorem digitsVal_natReprAux : ∀ fuel n : Nat, n ≤ fuel → digitsVal (natReprAux fuel n) = n := by
  intro fuel
  induction fuel with
  | zero =>
    intro n h
    have hn : n = 0 := by omega
    subst hn
    rfl
  | succ fuel ih =>
    intro n h
    cases n with
    | zero => rfl
    | succ m =>
      have hdiv : (m + 1) / 10 < m + 1 := Nat.div_lt_self (Nat.succ_pos m) (by norm_num)
      rw [natReprAux, digitsVal_append, ih _ (by omega),
        charToDigit_digitChar (Nat.mod_lt _ (by norm_num))]
      omega

theorem natRepr_inj {a b : Nat} (ha : 1 ≤ a) (hb : 1 ≤ b) (h : natRepr a = natRepr b) :
    a = b := by
  unfold natRepr at h
  rw [if_neg (by omega), if_neg (by omega)] at h
  have h2 := congrArg (fun s : String => digitsVal s.data) h
  simpa [digitsVal_natReprAux a a le_rfl, digitsVal_natReprAux b b le_rfl] using h2

/-- Data of an appended string, stated locally so later proofs do not
depend on library naming. -/
theorem strData_append (s t : String) : (s ++ t).data = s.data ++ t.data := by
  cases s
  cases t
  rfl

theorem strAppend_empty (s : String) : s ++ "" = s := by
  cases s with
  | mk d => exact congrArg String.mk (List.append_nil d)

theorem strEmpty_append (s : String) : "" ++ s = s := by
  cases s with
  | mk d => rfl

/-- Zero-padded two-digit field of a Qt date/time format string. -/
def pad2 (n : Nat) : String := if n < 10 then "0" ++ natRepr n else natRepr n

/-- Zero-padded three-digit field (`zzz`). -/
def pad3 (n : Nat) : String :=
  if n < 10 then "00" ++ natRepr n else if n < 100 then "0" ++ natRepr n else natRepr n

/-- Zero-padded four-digit field (`yyyy`). -/
def pad4 (n : Nat) : String :=
  if n < 10 then "000" ++ natRepr n
  else if n < 100 then "00" ++ natRepr n
  else if n < 1000 then "0" ++ natRepr n
  else natRepr n

/-- Calendar date, modelling `QDate`. -/
structure DateM where
  year : Nat
  month : Nat
  day : Nat
deriving DecidableEq

/-- Time-stamped instant, modelling `QDateTime`. -/
structure QDateTimeM where
  year : Nat
  month : Nat
  day : Nat
  hour : Nat
  minute : Nat
  second : Nat
  msec : Nat
deriving DecidableEq

/-- Rendering of a `QDateTime` with the format string
`"yyyy-MM-dd hh:mm:ss:zzz"` used by `QLoggerWriter::enqueue`. -/
def tsFormat (d : QDateTimeM) : String :=
  pad4 d.year ++ "-" ++ pad2 d.month ++ "-" ++ pad2 d.day ++ " " ++ pad2 d.hour ++ ":"
    ++ pad2 d.minute ++ ":" ++ pad2 d.second ++ ":" ++ pad3 d.msec

/-- Rendering of a `QDate` with the format string `"_yyyy_MM_dd"` used by
`QLoggerWriter::renameFileIfFull`. -/
def dateSuffix (d : DateM) : String :=
  "_" ++ pad4 d.year ++ "_" ++ pad2 d.month ++ "_" ++ pad2 d.day

/-- Severity levels of `QLogger::LogLevel`, in the declaration order used
by `levelToText`. -/
inductive LogLevel where
  | Trace
  | Debug
  | Info
  | Warning
  | Error
  | Fatal
deriving DecidableEq

/-- Underlying integer of the `LogLevel` enum, following declaration
order; the C++ comparison `mLevel <= LogLevel::Debug` compares these. -/
def LogLevel.toNat : LogLevel → Nat
  | .Trace => 0
  | .Debug => 1
  | .Info => 2
  | .Warning => 3
  | .Error => 4
  | .Fatal => 5

/-- Operating modes of `QLogger::LogMode`. -/
inductive LogMode where
  | Disabled
  | OnlyConsole
  | OnlyFile
  | Full
deriving DecidableEq

/-- Suffix style of the (dead) size-based rotation, `QLogger::LogFileDisplay`. -/
inductive LogFileDisplay where
  | DateTime
  | Number
deriving DecidableEq

/-- Display-flag set `QLogger::LogMessageDisplays`, one Boolean per
`LogMessageDisplay` bit tested by `enqueue`. -/
structure LogMessageDisplays where
  logLevel : Bool
  moduleName : Bool
  dateTime : Bool
  threadId : Bool
  func : Bool
  file : Bool
  line : Bool
  message : Bool
deriving DecidableEq

/-- Modelled from the spec: the header declaring `LogMessageDisplay`
(`QLoggerLevel.h`, not under `src/`) fixes the value of the `Default`
composite.  Per the spec, the default layout carries Level, Module,
Timestamp, ThreadId, the File:Line (or File/Function) segment, and the
Message, so `Default` comprises every display bit. -/
def defaultComposite : LogMessageDisplays :=
  ⟨true, true, true, true, true, true, true, true⟩

/-- QFlags containment test `mMessageOptions.testFlag(LogMessageDisplay::Default)`:
true exactly when every bit of the `Default` composite is present. -/
def testDefault (o : LogMessageDisplays) : Bool :=
  o.logLevel && o.moduleName && o.dateTime && o.threadId && o.func && o.file && o.line
    && o.message

theorem testDefault_iff (o : LogMessageDisplays) :
    testDefault o = true ↔ o = defaultComposite := by
  cases o
  simp [testDefault, defaultComposite]
  tauto

/-- Translation of the anonymous-namespace helper `levelToText`. -/
def levelToText : LogLevel → String
  | .Trace => "Trace"
  | .Debug => "Debug"
  | .Info => "Info"
  | .Warning => "Warning"
  | .Error => "Error"
  | .Fatal => "Fatal"

/-- QString head test `startsWith(QChar::Space)`. -/
def startsWithSpace (s : String) : Bool :=
  decide (s.data.head? = some ' ')

/-- QString last-character test `endsWith(QChar::Space)`. -/
def endsWithSpace (s : String) : Bool :=
  decide (s.data.getLast? = some ' ')

/-- QString `right(n)`: the last `n` characters. -/
def qRight (s : String) (n : Nat) : String := ⟨s.data.drop (s.data.length - n)⟩

/-- QString `insert(i, t)`: insert `t` before position `i`. -/
def strInsert (s : String) (i : Nat) (t : String) : String :=
  ⟨s.data.take i ++ t.data ++ s.data.drop i⟩

/-- The `fileLine` segment computed at the top of `QLoggerWriter::enqueue`:
`{file:line}` when the File and Line flags are set, the file name is
non-empty, the line is positive and the configured level is at most
Debug; otherwise `{file}{function}` under the analogous conditions. -/
def fileLineSeg (opts : LogMessageDisplays) (cfgLevel : LogLevel) (func fileName : String)
    (line : Int) : String :=
  if opts.file = true ∧ opts.line = true ∧ fileName ≠ "" ∧ 0 < line
      ∧ cfgLevel.toNat ≤ LogLevel.Debug.toNat then
    "\x7b" ++ fileName ++ ":" ++ natRepr line.toNat ++ "\x7d"
  else if opts.file = true ∧ opts.func = true ∧ fileName ≠ "" ∧ func ≠ ""
      ∧ cfgLevel.toNat ≤ LogLevel.Debug.toNat then
    "\x7b" ++ fileName ++ "\x7d\x7b" ++ func ++ "\x7d"
  else ""

/-- The `text` accumulated by `QLoggerWriter::enqueue` before the final
newline is appended (source lines 223-257): the default-composite branch
produces the fixed `[..][..][..][..]seg msg` layout, the other branch
appends the enabled fields in order. -/
def formatBody (opts : LogMessageDisplays) (cfgLevel : LogLevel) (date : QDateTimeM)
    (threadId moduleName : String) (level : LogLevel) (func fileName : String) (line : Int)
    (message : String) : String :=
  let fileLine := fileLineSeg opts cfgLevel func fileName line
  if testDefault opts = true then
    "[" ++ levelToText level ++ "][" ++ moduleName ++ "][" ++ tsFormat date ++ "]["
      ++ threadId ++ "]" ++ fileLine ++ " " ++ message
  else
    let t1 := if opts.logLevel = true then "" ++ "[" ++ levelToText level ++ "]" else ""
    let t2 := if opts.moduleName = true then t1 ++ "[" ++ moduleName ++ "]" else t1
    let t3 := if opts.dateTime = true then t2 ++ "[" ++ tsFormat date ++ "]" else t2
    let t4 := if opts.threadId = true then t3 ++ "[" ++ threadId ++ "]" else t3
    let t5 :=
      if fileLine ≠ "" then
        t4 ++ (if startsWithSpace fileLine = true then qRight fileLine 1 else fileLine)
      else t4
    if opts.message = true then
      if t5 = "" ∨ endsWithSpace t5 = true then t5 ++ message else t5 ++ " " ++ message
    else t5

/-- The complete line produced by `QLoggerWriter::enqueue`: the
accumulated text followed by the newline of `text.append("\n")`. -/
def formatMessage (opts : LogMessageDisplays) (cfgLevel : LogLevel) (date : QDateTimeM)
    (threadId moduleName : String) (level : LogLevel) (func fileName : String) (line : Int)
    (message : String) : String :=
  formatBody opts cfgLevel date threadId moduleName level func fileName line message ++ "\n"

/-- QString `lastIndexOf(QChar)`: index of the last occurrence, `-1` when
absent. -/
def qLastIndexOf (s : String) (c : Char) : Int :=
  match List.findIdx? (fun x => decide (x = c)) s.data.reverse with
  | some i => (s.data.length : Int) - 1 - i
  | none => -1

/-- QString `left(n)`: the whole string when `n` is negative or at least
the length, otherwise the first `n` characters. -/
def qLeft (s : String) (n : Int) : String :=
  if n < 0 ∨ (s.data.length : Int) ≤ n then s else ⟨s.data.take n.toNat⟩

/-- QString `mid(pos)` for a non-negative position. -/
def qMid (s : String) (pos : Int) : String := ⟨s.data.drop pos.toNat⟩

/-- Mutable members of `QLoggerWriter` that the embedded operations read
or update.  Timer and condition-variable members are omitted: they carry
no data the verified claims depend on. -/
structure WriterState where
  mFileDestination : String
  mMode : LogMode
  mLevel : LogLevel
  mMessageOptions : LogMessageDisplays
  mFileSuffixIfFull : LogFileDisplay
  mMaxFileSize : Nat
  currentDate : DateM
  mQuit : Bool
  mMessages : List String
deriving DecidableEq

/-- Ambient effects consumed during one flush: today's date, whether the
`QFile::rename` and `QFile::open` calls succeed, the current size of the
destination file, the set of files existing on disk, and the observable
results of the external `7z` process. -/
structure Env where
  today : DateM
  renameOk : Bool
  canOpen : Bool
  fileSize : Nat
  existing : List String
  nowStamp : String
  zipFinished : Bool
  zipCrashed : Bool
  zipElapsed : Nat
deriving DecidableEq

/-- Result of `renameFileIfFull`: the returned string, the updated writer
state, the rename performed (if any) and the file handed to the archiver
(if any). -/
structure RotResult where
  ret : String
  state : WriterState
  renamedTo : Option String
  archived : Option String
deriving DecidableEq

/-- Translation of `QLoggerWriter::zipFileCustom`: builds the `.7z`
archive path, invokes `7z a -t7z -mx9` (whose outcome the environment
supplies) and produces the human-readable status string. -/
def zipFileCustom (path : String) (env : Env) : String :=
  let archiveName := ⟨path.data.take (path.data.length - 4)⟩ ++ ".7z"
  path ++ " to archive : " ++ archiveName ++ ". "
    ++ ("finished: " ++ (if env.zipFinished then "yes" else "no") ++ ", "
      ++ (if env.zipCrashed then "The process crashed" else "The process exited normall"))
    ++ ". Time::" ++ natRepr env.zipElapsed

/-- Name produced by the date-based rotation: the tracked date's
`"_yyyy_MM_dd"` rendering inserted four characters before the end of the
destination path (`newName.insert(newName.size() - 4, ...)`). -/
def rotatedName (dest : String) (d : DateM) : String :=
  strInsert dest (dest.length - 4) (dateSuffix d)

/-- The date-based block of `QLoggerWriter::renameFileIfFull` (source
lines 105-123).  Every control path inside the block ends in a `return`;
`some r` records the value and state with which it returns. -/
def dateRotationStep (st : WriterState) (env : Env) : Option RotResult :=
  if st.currentDate = env.today then
    some ⟨"", st, none, none⟩
  else
    let newName := rotatedName st.mFileDestination st.currentDate
    if env.renameOk = false then
      some ⟨"", st, none, none⟩
    else
      let st' := { st with currentDate := env.today }
      if st.mQuit = true then
        some ⟨newName, st', some newName, none⟩
      else
        some ⟨zipFileCustom newName env, st', some newName, some newName⟩

/-- Candidate path of `generateDuplicateFilename` for suffix number `n`:
`base(n).ext` when `n > 1`, else `base.ext`. -/
def dupName (base ext : String) (n : Nat) : String :=
  if 1 < n then base ++ "(" ++ natRepr n ++ ")." ++ ext
  else base ++ "." ++ ext

/-- Fuelled translation of the recursive search in
`QLoggerWriter::generateDuplicateFilename`: while the candidate exists on
disk, try the next suffix number.  The C++ recursion is unbounded; the
theorem `generateDuplicateFilename_lowest_unused` proves that the fuel
chosen in `QLoggerWriter.generateDuplicateFilename` always suffices, so
the fuel-exhausted branch is never the one that produces the result. -/
def genDupAux (existing : List String) (base ext : String) : Nat → Nat → String
  | 0, n => dupName base ext n
  | fuel + 1, n =>
    if dupName base ext n ∈ existing then genDupAux existing base ext fuel (n + 1)
    else dupName base ext n

/-- Translation of `QLoggerWriter::generateDuplicateFilename` called with
its default suffix number `1`; `existing` models the set of paths for
which `QFileInfo::exists` answers true. -/
def QLoggerWriter.generateDuplicateFilename (existing : List String) (base ext : String) :
    String :=
  genDupAux existing base ext (existing.length + 1) 1

/-- The unreachable size-based block of `renameFileIfFull` (source lines
126-148): rename when the file size reached `mMaxFileSize`, using either
a date-time stamp or a duplicate-number suffix. -/
def sizeRotationStep (st : WriterState) (env : Env) : RotResult :=
  if st.mMaxFileSize ≤ env.fileSize then
    let dotIdx := qLastIndexOf st.mFileDestination '.'
    let fileDestination := qLeft st.mFileDestination dotIdx
    let fileExtension := qMid st.mFileDestination (dotIdx + 1)
    let newName :=
      if st.mFileSuffixIfFull = LogFileDisplay.DateTime then
        fileDestination ++ "_" ++ env.nowStamp ++ "." ++ fileExtension
      else QLoggerWriter.generateDuplicateFilename env.existing fileDestination fileExtension
    if env.renameOk = true then ⟨newName, st, some newName, none⟩
    else ⟨"", st, none, none⟩
  else ⟨"", st, none, none⟩

/-- Translation of the whole `QLoggerWriter::renameFileIfFull`: the
date-based block runs first, and only if it fell through would the
size-based block execute. -/
def QLoggerWriter.renameFileIfFull (st : WriterState) (env : Env) : RotResult :=
  match dateRotationStep st env with
  | some r => r
  | none => sizeRotationStep st env

/-- The same function with the size-based branch deleted: if the
date-based block fell through, only the final `return QString()` would
remain. -/
def renameFileIfFullDateOnly (st : WriterState) (env : Env) : RotResult :=
  match dateRotationStep st env with
  | some r => r
  | none => ⟨"", st, none, none⟩

/-- Observable outcome of one writer operation: the updated state, the
lines appended to the destination file, and the lines written to the
console sink. -/
structure WriteOutput where
  state : WriterState
  fileLines : List String
  consoleLines : List String
deriving DecidableEq

/-- Translation of `QLoggerWriter::write`: console-only mode mirrors the
batch to the console; otherwise the rotation policy runs, and if the
destination opens, an optional `Previous log` marker and then the batch
are appended (mirrored to the console in Full mode).  When the open
fails, nothing at all is written. -/
def QLoggerWriter.write (st : WriterState) (env : Env) (messages : List String) :
    WriteOutput :=
  if st.mMode = LogMode.OnlyConsole then
    ⟨st, [], messages⟩
  else
    let r := QLoggerWriter.renameFileIfFull st env
    let st' := r.state
    if env.canOpen = true then
      ⟨st',
        (if r.ret ≠ "" then ["Previous log " ++ r.ret ++ "\n"] else []) ++ messages,
        if st.mMode = LogMode.Full then messages else []⟩
    else ⟨st', [], []⟩

/-- Translation of `QLoggerWriter::enqueue`: a no-op in Disabled mode,
otherwise format the line and append it to the pending queue.  The
wake-signal rate limiting touches only the timer and condition variable,
which carry no modelled data. -/
def QLoggerWriter.enqueue (st : WriterState) (date : QDateTimeM)
    (threadId moduleName : String) (level : LogLevel) (func fileName : String) (line : Int)
    (message : String) : WriterState :=
  if st.mMode = LogMode.Disabled then st
  else
    { st with
      mMessages := st.mMessages
        ++ [formatMessage st.mMessageOptions st.mLevel date threadId moduleName level func
          fileName line message] }

/-- Translation of `QLoggerWriter::closeDestination`: flush the pending
queue if non-empty, write the `Closed` marker line, then set the quit
flag (the condition-variable wake carries no modelled data).  `now`
stands for `QDateTime::currentDateTime().toString()`. -/
def QLoggerWriter.closeDestination (st : WriterState) (env : Env) (now : String) :
    WriteOutput :=
  let w1 :=
    if st.mMessages.isEmpty = true then (⟨st, [], []⟩ : WriteOutput)
    else QLoggerWriter.write { st with mMessages := [] } env st.mMessages
  let w2 := QLoggerWriter.write w1.state env ["Closed " ++ now ++ " \n"]
  ⟨{ w2.state with mQuit := true }, w1.fileLines ++ w2.fileLines,
    w1.consoleLines ++ w2.consoleLines⟩

/-- Layout stated by the specification for the default composite:
`[Level][Module][Timestamp][ThreadId]{File:Line} Message`, where the
file/line (or file/function) segment appears only under the stated
non-emptiness and severity conditions, and the line ends in a newline.
Written from the spec's words, to be compared with the source-derived
`formatMessage`. -/
def specDefaultLayout (cfgLevel : LogLevel) (date : QDateTimeM)
    (threadId moduleName : String) (level : LogLevel) (func fileName : String) (line : Int)
    (message : String) : String :=
  let seg :=
    if fileName ≠ "" ∧ 0 < line ∧ cfgLevel.toNat ≤ LogLevel.Debug.toNat then
      "\x7b" ++ fileName ++ ":" ++ natRepr line.toNat ++ "\x7d"
    else if fileName ≠ "" ∧ func ≠ "" ∧ cfgLevel.toNat ≤ LogLevel.Debug.toNat then
      "\x7b" ++ fileName ++ "\x7d\x7b" ++ func ++ "\x7d"
    else ""
  "[" ++ levelToText level ++ "][" ++ moduleName ++ "][" ++ tsFormat date ++ "]["
    ++ threadId ++ "]" ++ seg ++ " " ++ message

/-- Composition stated by the specification for a non-default flag set:
only the enabled fields, in the fixed order Level, Module, Timestamp,
ThreadId, file/function segment, Message; every field bracketed except
the message, which gets a single leading space unless the accumulated
text is empty or already ends in a space.  Written from the spec's
words. -/
def specComposed (opts : LogMessageDisplays) (cfgLevel : LogLevel) (date : QDateTimeM)
    (threadId moduleName : String) (level : LogLevel) (func fileName : String) (line : Int)
    (message : String) : String :=
  let t1 := if opts.logLevel = true then "" ++ "[" ++ levelToText level ++ "]" else ""
  let t2 := if opts.moduleName = true then t1 ++ "[" ++ moduleName ++ "]" else t1
  let t3 := if opts.dateTime = true then t2 ++ "[" ++ tsFormat date ++ "]" else t2
  let t4 := if opts.threadId = true then t3 ++ "[" ++ threadId ++ "]" else t3
  let t5 := t4 ++ fileLineSeg opts cfgLevel func fileName line
  if opts.message = true then
    if t5 = "" ∨ endsWithSpace t5 = true then t5 ++ message else t5 ++ " " ++ message
  else t5

theorem fileLineSeg_no_leading_space (opts : LogMessageDisplays) (cfgLevel : LogLevel)
    (func fileName : String) (line : Int) :
    startsWithSpace (fileLineSeg opts cfgLevel func fileName line) = false := by
  unfold fileLineSeg
  split
  · simp [startsWithSpace, strData_append]
  split
  · simp [startsWithSpace, strData_append]
  · simp [startsWithSpace]

theorem append_fileLine_step (t seg : String) (hs : startsWithSpace seg = false) :
    (if seg ≠ "" then t ++ (if startsWithSpace seg = true then qRight seg 1 else seg)
      else t) = t ++ seg := by
  by_cases he : seg = ""
  · simp [he, strAppend_empty]
  · simp [he, hs]

/-- C1: under the default composite flag set the formatter produces the
fixed layout `[Level][Module][Timestamp][ThreadId]{File:Line} Message`,
the `{File:Line}` segment appearing exactly when the file name is
non-empty, the line positive and the configured severity at most Debug,
with `{File}{Function}` as the fallback under the analogous conditions. -/
theorem enqueue_default_layout (opts : LogMessageDisplays) (cfgLevel : LogLevel)
    (date : QDateTimeM) (threadId moduleName : String) (level : LogLevel)
    (func fileName : String) (line : Int) (message : String)
    (h : opts = defaultComposite) :
    formatMessage opts cfgLevel date threadId moduleName level func fileName line message
      = specDefaultLayout cfgLevel date threadId moduleName level func fileName line message
        ++ "\n" := by
  subst h
  simp only [formatMessage, formatBody, specDefaultLayout, fileLineSeg, testDefault,
    defaultComposite, Bool.and_self, if_true]
  simp

/-- C1 witness: the default composite with `fileName = "a.cpp"`,
`line = 10`, level Debug produces a line containing the literal
substring `{a.cpp:10}`. -/
theorem enqueue_default_layout_witness :
    formatMessage defaultComposite LogLevel.Debug ⟨2024, 1, 5, 10, 0, 0, 0⟩ "0x1" "Net"
        LogLevel.Debug "main" "a.cpp" 10 "hello"
      = specDefaultLayout LogLevel.Debug ⟨2024, 1, 5, 10, 0, 0, 0⟩ "0x1" "Net"
        LogLevel.Debug "main" "a.cpp" 10 "hello" ++ "\n"
    ∧ formatMessage defaultComposite LogLevel.Debug ⟨2024, 1, 5, 10, 0, 0, 0⟩ "0x1" "Net"
        LogLevel.Debug "main" "a.cpp" 10 "hello"
      = "[Debug][Net][2024-01-05 10:00:00:000][0x1]" ++ "\x7ba.cpp:10\x7d" ++ " hello\n" :=
  ⟨enqueue_default_layout defaultComposite LogLevel.Debug ⟨2024, 1, 5, 10, 0, 0, 0⟩ "0x1"
    "Net" LogLevel.Debug "main" "a.cpp" 10 "hello" rfl, by decide⟩

/-- C6: for every flag set different from the default composite the
formatter emits exactly the enabled fields in the fixed order Level,
Module, Timestamp, ThreadId, file/function segment, Message, each
bracketed except the message, which gets a single leading space unless
the accumulated text is empty or ends in a space. -/
theorem enqueue_custom_composition (opts : LogMessageDisplays) (cfgLevel : LogLevel)
    (date : QDateTimeM) (threadId moduleName : String) (level : LogLevel)
    (func fileName : String) (line : Int) (message : String)
    (h : opts ≠ defaultComposite) :
    formatMessage opts cfgLevel date threadId moduleName level func fileName line message
      = specComposed opts cfgLevel date threadId moduleName level func fileName line message
        ++ "\n" := by
  have htd : testDefault opts = false := by
    rcases h2 : testDefault opts with _ | _
    · rfl
    · exact absurd ((testDefault_iff opts).1 h2) h
  simp only [formatMessage, formatBody, specComposed, htd, Bool.false_eq_true, if_false]
  rw [append_fileLine_step _ _ (fileLineSeg_no_leading_space opts cfgLevel func fileName line)]

/-- C6 witness: flags `{LogLevel, ModuleName, Message}` with inputs
`(Error, "Net", "timeout")` render `[Error][Net] timeout`. -/
theorem enqueue_custom_composition_witness :
    formatMessage ⟨true, true, false, false, false, false, false, true⟩ LogLevel.Info
        ⟨2024, 1, 5, 10, 0, 0, 0⟩ "0x1" "Net" LogLevel.Error "" "" 0 "timeout"
      = specComposed ⟨true, true, false, false, false, false, false, true⟩ LogLevel.Info
        ⟨2024, 1, 5, 10, 0, 0, 0⟩ "0x1" "Net" LogLevel.Error "" "" 0 "timeout" ++ "\n"
    ∧ specComposed ⟨true, true, false, false, false, false, false, true⟩ LogLevel.Info
        ⟨2024, 1, 5, 10, 0, 0, 0⟩ "0x1" "Net" LogLevel.Error "" "" 0 "timeout"
      = "[Error][Net] timeout" :=
  ⟨enqueue_custom_composition ⟨true, true, false, false, false, false, false, true⟩
    LogLevel.Info ⟨2024, 1, 5, 10, 0, 0, 0⟩ "0x1" "Net" LogLevel.Error "" "" 0 "timeout"
    (by decide), by decide⟩

/-- C10: in any mode other than Disabled, `enqueue` appends exactly one
element to the pending queue, and that element ends with a newline. -/
theorem enqueue_appends_one_newline_terminated (st : WriterState) (date : QDateTimeM)
    (threadId moduleName : String) (level : LogLevel) (func fileName : String) (line : Int)
    (message : String) (h : st.mMode ≠ LogMode.Disabled) :
    ∃ body,
      (QLoggerWriter.enqueue st date threadId moduleName level func fileName line
          message).mMessages
        = st.mMessages ++ [body ++ "\n"] := by
  refine ⟨formatBody st.mMessageOptions st.mLevel date threadId moduleName level func
    fileName line message, ?_⟩
  unfold QLoggerWriter.enqueue
  rw [if_neg h]
  rfl

/-- C10 witness: with every display flag disabled the queued element is
the bare newline, so a one-element, newline-terminated entry is queued
even then. -/
theorem enqueue_appends_one_newline_terminated_witness :
    (∃ body,
      (QLoggerWriter.enqueue
          ⟨"logs/app.log", LogMode.OnlyFile, LogLevel.Info,
            ⟨false, false, false, false, false, false, false, false⟩,
            LogFileDisplay.Number, 0, ⟨2024, 1, 5⟩, false, []⟩
          ⟨2024, 1, 5, 10, 0, 0, 0⟩ "0x1" "Net" LogLevel.Error "f" "g.cpp" 3
          "msg").mMessages
        = ([] : List String) ++ [body ++ "\n"])
    ∧ (QLoggerWriter.enqueue
          ⟨"logs/app.log", LogMode.OnlyFile, LogLevel.Info,
            ⟨false, false, false, false, false, false, false, false⟩,
            LogFileDisplay.Number, 0, ⟨2024, 1, 5⟩, false, []⟩
          ⟨2024, 1, 5, 10, 0, 0, 0⟩ "0x1" "Net" LogLevel.Error "f" "g.cpp" 3
          "msg").mMessages
        = ["\n"] :=
  ⟨enqueue_appends_one_newline_terminated _ _ _ _ _ _ _ _ _ (by decide), by decide⟩

theorem strEq_of_data {s t : String} (h : s.data = t.data) : s = t := by
  cases s
  cases t
  exact congrArg String.mk h

theorem dateRotationStep_total (st : WriterState) (env : Env) :
    ∃ r, dateRotationStep st env = some r := by
  unfold dateRotationStep
  by_cases h1 : st.currentDate = env.today
  · simp [h1]
  · by_cases h2 : env.renameOk = false
    · simp [h1, h2]
    · by_cases h3 : st.mQuit = true <;> simp [h1, h2, h3]

/-- C3: the size-based rotation branch of `renameFileIfFull` is dead:
the date-based block returns on every control path, so the whole
function coincides with the variant from which the size-based branch has
been deleted. -/
theorem renameFileIfFull_size_branch_dead (st : WriterState) (env : Env) :
    (dateRotationStep st env).isSome = true
    ∧ QLoggerWriter.renameFileIfFull st env = renameFileIfFullDateOnly st env := by
  obtain ⟨r, hr⟩ := dateRotationStep_total st env
  constructor
  · rw [hr]
    rfl
  · unfold QLoggerWriter.renameFileIfFull renameFileIfFullDateOnly
    rw [hr]

/-- C2 counterexample: with destination `logs/a.json` (a four-character
extension) and tracked date 2024-01-05, the rotation renames to
`logs/a._2024_01_05json`, not to the spec's
`<base>_<yyyy>_<MM>_<dd>.<ext>` form `logs/a_2024_01_05.json`: the date
is inserted four characters before the end of the path, not before the
extension. -/
theorem rotation_suffix_counterexample :
    (QLoggerWriter.renameFileIfFull
        ⟨"logs/a.json", LogMode.OnlyFile, LogLevel.Debug, defaultComposite,
          LogFileDisplay.Number, 1000000, ⟨2024, 1, 5⟩, false, []⟩
        ⟨⟨2024, 1, 6⟩, true, true, 0, [], "", true, false, 0⟩).renamedTo
      = some "logs/a._2024_01_05json"
    ∧ "logs/a._2024_01_05json" ≠ "logs/a_2024_01_05.json" := by
  decide

/-- C2 (amended): on a flush with an unchanged tracked date the rotation
does nothing and returns the empty result; otherwise, when the rename
succeeds, the destination is renamed to the name with the previously
tracked date's `_yyyy_MM_dd` rendering inserted four characters before
the end of the path — which is immediately before the extension exactly
when the extension has three characters, giving `<base>_<yyyy>_<MM>_<dd>.<ext>`
— and the tracked date is updated to today. -/
theorem renameFileIfFull_date_policy (st : WriterState) (env : Env) :
    (st.currentDate = env.today →
      QLoggerWriter.renameFileIfFull st env = ⟨"", st, none, none⟩)
    ∧ (st.currentDate ≠ env.today → env.renameOk = true →
      (QLoggerWriter.renameFileIfFull st env).renamedTo
          = some (rotatedName st.mFileDestination st.currentDate)
        ∧ (QLoggerWriter.renameFileIfFull st env).state.currentDate = env.today)
    ∧ (∀ stem ext : String, ext.length = 3 →
      rotatedName (stem ++ "." ++ ext) st.currentDate
        = stem ++ dateSuffix st.currentDate ++ "." ++ ext) := by
  refine ⟨?_, ?_, ?_⟩
  · intro h
    unfold QLoggerWriter.renameFileIfFull dateRotationStep
    rw [if_pos h]
  · intro h hr
    unfold QLoggerWriter.renameFileIfFull dateRotationStep
    rw [if_neg h]
    by_cases hq : st.mQuit = true <;> simp [hr, hq]
  · intro stem ext h3
    apply strEq_of_data
    have hdata : (stem ++ "." ++ ext).data = stem.data ++ (['.'] ++ ext.data) := by
      rw [strData_append, strData_append, List.append_assoc]
    have hlen : (stem ++ "." ++ ext).length - 4 = stem.data.length := by
      have h4 : ext.data.length = 3 := h3
      show (stem ++ "." ++ ext).data.length - 4 = stem.data.length
      rw [hdata]
      simp only [List.length_append, List.length_cons, List.length_nil]
      omega
    rw [rotatedName, strInsert, hlen, hdata, List.take_left, List.drop_left]
    rw [strData_append, strData_append, strData_append]
    simp [List.append_assoc]

/-- C2 witness: the unchanged-date case returns the empty result; a
changed date with a successful rename records the rotated name and
updates the tracked date; and on the three-character extension `log` the
rotated name follows the `<base>_<yyyy>_<MM>_<dd>.<ext>` convention. -/
theorem renameFileIfFull_date_policy_witness :
    (QLoggerWriter.renameFileIfFull
        ⟨"logs/app.log", LogMode.OnlyFile, LogLevel.Debug, defaultComposite,
          LogFileDisplay.Number, 1000000, ⟨2024, 1, 6⟩, false, []⟩
        ⟨⟨2024, 1, 6⟩, true, true, 0, [], "", true, false, 0⟩
      = ⟨"", ⟨"logs/app.log", LogMode.OnlyFile, LogLevel.Debug, defaultComposite,
          LogFileDisplay.Number, 1000000, ⟨2024, 1, 6⟩, false, []⟩, none, none⟩)
    ∧ ((QLoggerWriter.renameFileIfFull
        ⟨"logs/app.log", LogMode.OnlyFile, LogLevel.Debug, defaultComposite,
          LogFileDisplay.Number, 1000000, ⟨2024, 1, 5⟩, false, []⟩
        ⟨⟨2024, 1, 6⟩, true, true, 0, [], "", true, false, 0⟩).renamedTo
      = some (rotatedName "logs/app.log" ⟨2024, 1, 5⟩)
      ∧ (QLoggerWriter.renameFileIfFull
        ⟨"logs/app.log", LogMode.OnlyFile, LogLevel.Debug, defaultComposite,
          LogFileDisplay.Number, 1000000, ⟨2024, 1, 5⟩, false, []⟩
        ⟨⟨2024, 1, 6⟩, true, true, 0, [], "", true, false, 0⟩).state.currentDate
      = ⟨2024, 1, 6⟩)
    ∧ rotatedName ("logs/app" ++ "." ++ "log") ⟨2024, 1, 5⟩
      = "logs/app" ++ dateSuffix ⟨2024, 1, 5⟩ ++ "." ++ "log" :=
  ⟨(renameFileIfFull_date_policy _ _).1 rfl,
    (renameFileIfFull_date_policy _ _).2.1 (by decide) rfl,
    (renameFileIfFull_date_policy
      ⟨"logs/app.log", LogMode.OnlyFile, LogLevel.Debug, defaultComposite,
        LogFileDisplay.Number, 1000000, ⟨2024, 1, 5⟩, false, []⟩
      ⟨⟨2024, 1, 6⟩, true, true, 0, [], "", true, false, 0⟩).2.2 "logs/app" "log" rfl⟩

/-- C8: when the date has changed but the rename fails, `renameFileIfFull`
returns the empty result, leaves the tracked date (and all state)
unchanged, records no rename and invokes no archiver. -/
theorem renameFileIfFull_rename_failure (st : WriterState) (env : Env)
    (h1 : st.currentDate ≠ env.today) (h2 : env.renameOk = false) :
    QLoggerWriter.renameFileIfFull st env = ⟨"", st, none, none⟩ := by
  unfold QLoggerWriter.renameFileIfFull dateRotationStep
  rw [if_neg h1]
  simp [h2]

/-- C8 witness at a concrete failing rename. -/
theorem renameFileIfFull_rename_failure_witness :
    QLoggerWriter.renameFileIfFull
        ⟨"logs/app.log", LogMode.OnlyFile, LogLevel.Debug, defaultComposite,
          LogFileDisplay.Number, 1000000, ⟨2024, 1, 5⟩, false, []⟩
        ⟨⟨2024, 1, 6⟩, false, true, 0, [], "", true, false, 0⟩
      = ⟨"", ⟨"logs/app.log", LogMode.OnlyFile, LogLevel.Debug, defaultComposite,
          LogFileDisplay.Number, 1000000, ⟨2024, 1, 5⟩, false, []⟩, none, none⟩ :=
  renameFileIfFull_rename_failure _ _ (by decide) rfl

/-- C9: a rotation performed while the quit flag is set still renames the
file and updates the tracked date, still returns the renamed file's name,
but does not invoke the archiver. -/
theorem renameFileIfFull_quit_skips_archive (st : WriterState) (env : Env)
    (h1 : st.currentDate ≠ env.today) (h2 : env.renameOk = true) (h3 : st.mQuit = true) :
    QLoggerWriter.renameFileIfFull st env
      = ⟨rotatedName st.mFileDestination st.currentDate,
          { st with currentDate := env.today },
          some (rotatedName st.mFileDestination st.currentDate), none⟩ := by
  unfold QLoggerWriter.renameFileIfFull dateRotationStep
  rw [if_neg h1]
  simp [h2, h3]

/-- C9 witness at a concrete shutdown rotation. -/
theorem renameFileIfFull_quit_skips_archive_witness :
    QLoggerWriter.renameFileIfFull
        ⟨"logs/app.log", LogMode.OnlyFile, LogLevel.Debug, defaultComposite,
          LogFileDisplay.Number, 1000000, ⟨2024, 1, 5⟩, true, []⟩
        ⟨⟨2024, 1, 6⟩, true, true, 0, [], "", true, false, 0⟩
      = ⟨rotatedName "logs/app.log" ⟨2024, 1, 5⟩,
          ⟨"logs/app.log", LogMode.OnlyFile, LogLevel.Debug, defaultComposite,
            LogFileDisplay.Number, 1000000, ⟨2024, 1, 6⟩, true, []⟩,
          some (rotatedName "logs/app.log" ⟨2024, 1, 5⟩), none⟩ :=
  renameFileIfFull_quit_skips_archive _ _ (by decide) rfl rfl

theorem renameFileIfFull_state_fields (st : WriterState) (env : Env) :
    (QLoggerWriter.renameFileIfFull st env).state.mMessages = st.mMessages
    ∧ (QLoggerWriter.renameFileIfFull st env).state.mMode = st.mMode := by
  unfold QLoggerWriter.renameFileIfFull dateRotationStep
  by_cases h1 : st.currentDate = env.today
  · simp [h1]
  · by_cases h2 : env.renameOk = false
    · simp [h1, h2]
    · by_cases h3 : st.mQuit = true <;> simp [h1, h2, h3]

/-- C4: in a file-writing mode, when the destination cannot be opened,
`write` appends nothing to the file, mirrors nothing to the console, and
leaves the pending queue untouched — the batch is dropped with no output
and no error value of any kind. -/
theorem write_open_failure_drops_batch (st : WriterState) (env : Env)
    (messages : List String) (h1 : st.mMode ≠ LogMode.OnlyConsole)
    (h2 : env.canOpen = false) :
    (QLoggerWriter.write st env messages).fileLines = []
    ∧ (QLoggerWriter.write st env messages).consoleLines = []
    ∧ (QLoggerWriter.write st env messages).state.mMessages = st.mMessages := by
  unfold QLoggerWriter.write
  rw [if_neg h1]
  simp only [h2, Bool.false_eq_true, if_false]
  exact ⟨by trivial, by trivial, (renameFileIfFull_state_fields st env).1⟩

/-- C4 witness at a concrete failed open. -/
theorem write_open_failure_drops_batch_witness :
    (QLoggerWriter.write
        ⟨"logs/app.log", LogMode.Full, LogLevel.Debug, defaultComposite,
          LogFileDisplay.Number, 1000000, ⟨2024, 1, 6⟩, false, []⟩
        ⟨⟨2024, 1, 6⟩, true, false, 0, [], "", true, false, 0⟩
        ["[Info][Net] a\n", "[Info][Net] b\n"]).fileLines = []
    ∧ (QLoggerWriter.write
        ⟨"logs/app.log", LogMode.Full, LogLevel.Debug, defaultComposite,
          LogFileDisplay.Number, 1000000, ⟨2024, 1, 6⟩, false, []⟩
        ⟨⟨2024, 1, 6⟩, true, false, 0, [], "", true, false, 0⟩
        ["[Info][Net] a\n", "[Info][Net] b\n"]).consoleLines = []
    ∧ (QLoggerWriter.write
        ⟨"logs/app.log", LogMode.Full, LogLevel.Debug, defaultComposite,
          LogFileDisplay.Number, 1000000, ⟨2024, 1, 6⟩, false, []⟩
        ⟨⟨2024, 1, 6⟩, true, false, 0, [], "", true, false, 0⟩
        ["[Info][Net] a\n", "[Info][Net] b\n"]).state.mMessages = [] :=
  write_open_failure_drops_batch _ _ _ (by decide) rfl

theorem write_file_shape (st : WriterState) (env : Env) (messages : List String)
    (h1 : st.mMode ≠ LogMode.OnlyConsole) (h2 : env.canOpen = true) :
    ∃ p : List String,
      (QLoggerWriter.write st env messages).fileLines = p ++ messages
      ∧ (QLoggerWriter.write st env messages).state.mMode = st.mMode := by
  unfold QLoggerWriter.write
  rw [if_neg h1]
  simp only [h2, if_true]
  exact ⟨_, rfl, (renameFileIfFull_state_fields st env).2⟩

/-- C5: `closeDestination` first writes every pending line in FIFO
order, then the terminal `Closed` marker line, then sets the quit flag:
whenever the destination opens, the file receives the pending lines as a
contiguous block (possibly preceded and followed by rotation marker
lines) strictly before the `Closed` marker. -/
theorem closeDestination_drains_before_marker (st : WriterState) (env : Env) (now : String)
    (h1 : st.mMode ≠ LogMode.OnlyConsole) (h2 : env.canOpen = true) :
    (∃ p q, (QLoggerWriter.closeDestination st env now).fileLines
        = p ++ st.mMessages ++ q ++ ["Closed " ++ now ++ " \n"])
    ∧ (QLoggerWriter.closeDestination st env now).state.mQuit = true := by
  unfold QLoggerWriter.closeDestination
  by_cases hm : st.mMessages.isEmpty = true
  · rw [if_pos hm]
    have hml : st.mMessages = [] := List.isEmpty_iff.mp hm
    obtain ⟨p2, hp2, _⟩ :=
      write_file_shape st env ["Closed " ++ now ++ " \n"] h1 h2
    refine ⟨⟨p2, [], ?_⟩, rfl⟩
    dsimp only
    rw [hp2, hml]
    simp
  · rw [if_neg hm]
    obtain ⟨p1, hp1, hmode1⟩ :=
      write_file_shape { st with mMessages := [] } env st.mMessages h1 h2
    obtain ⟨p2, hp2, _⟩ :=
      write_file_shape (QLoggerWriter.write { st with mMessages := [] } env
          st.mMessages).state env ["Closed " ++ now ++ " \n"]
        (by rw [hmode1]; exact h1) h2
    refine ⟨⟨p1, p2, ?_⟩, rfl⟩
    dsimp only
    rw [hp1, hp2]
    simp [List.append_assoc]

/-- C5 witness: two pending lines and the marker land in the file in
order, and the quit flag ends set. -/
theorem closeDestination_drains_before_marker_witness :
    (∃ p q, (QLoggerWriter.closeDestination
        ⟨"logs/app.log", LogMode.OnlyFile, LogLevel.Debug, defaultComposite,
          LogFileDisplay.Number, 1000000, ⟨2024, 1, 6⟩, false, ["a\n", "b\n"]⟩
        ⟨⟨2024, 1, 6⟩, true, true, 0, [], "", true, false, 0⟩ "2024-01-06 10:00").fileLines
        = p ++ ["a\n", "b\n"] ++ q ++ ["Closed " ++ "2024-01-06 10:00" ++ " \n"])
    ∧ (QLoggerWriter.closeDestination
        ⟨"logs/app.log", LogMode.OnlyFile, LogLevel.Debug, defaultComposite,
          LogFileDisplay.Number, 1000000, ⟨2024, 1, 6⟩, false, ["a\n", "b\n"]⟩
        ⟨⟨2024, 1, 6⟩, true, true, 0, [], "", true, false, 0⟩
        "2024-01-06 10:00").state.mQuit = true :=
  closeDestination_drains_before_marker _ _ "2024-01-06 10:00" (by decide) rfl

theorem dupName_data_big (base ext : String) {n : Nat} (h : 1 < n) :
    (dupName base ext n).data
      = base.data ++ ('(' :: ((natRepr n).data ++ (')' :: '.' :: ext.data))) := by
  unfold dupName
  rw [if_pos h]
  have h1 : "(".data = ['('] := rfl
  have h2 : ").".data = [')', '.'] := rfl
  simp only [strData_append, h1, h2, List.append_assoc, List.singleton_append,
    List.cons_append, List.nil_append]

theorem dupName_data_one (base ext : String) {n : Nat} (h : ¬1 < n) :
    (dupName base ext n).data = base.data ++ ('.' :: ext.data) := by
  unfold dupName
  rw [if_neg h]
  have h1 : ".".data = ['.'] := rfl
  simp only [strData_append, h1, List.append_assoc, List.singleton_append]

theorem dupName_inj {base ext : String} {a b : Nat} (ha : 1 ≤ a) (hb : 1 ≤ b)
    (h : dupName base ext a = dupName base ext b) : a = b := by
  have hd := congrArg String.data h
  by_cases h1 : 1 < a
  · by_cases h2 : 1 < b
    · rw [dupName_data_big base ext h1, dupName_data_big base ext h2] at hd
      have hd2 := List.append_cancel_left hd
      simp only [List.cons.injEq, true_and] at hd2
      have hd4 := List.append_cancel_right hd2
      exact natRepr_inj (by omega) (by omega) (strEq_of_data hd4)
    · rw [dupName_data_big base ext h1, dupName_data_one base ext h2] at hd
      have hd2 := List.append_cancel_left hd
      simp only [List.cons.injEq] at hd2
      exact absurd hd2.1 (by decide)
  · by_cases h2 : 1 < b
    · rw [dupName_data_one base ext h1, dupName_data_big base ext h2] at hd
      have hd2 := List.append_cancel_left hd
      simp only [List.cons.injEq] at hd2
      exact absurd hd2.1 (by decide)
    · omega

theorem exists_free_suffix (existing : List String) (base ext : String) (n : Nat)
    (hn : 1 ≤ n) :
    ∃ k, n ≤ k ∧ k ≤ n + existing.length ∧ dupName base ext k ∉ existing := by
  by_contra hc
  push_neg at hc
  have hmaps : ∀ i ∈ Finset.range (existing.length + 1),
      dupName base ext (n + i) ∈ existing.toFinset := by
    intro i hi
    rw [List.mem_toFinset]
    rw [Finset.mem_range] at hi
    exact hc _ (by omega) (by omega)
  have hinj : Set.InjOn (fun i => dupName base ext (n + i))
      (Finset.range (existing.length + 1)) := by
    intro i _ j _ hij
    have hij2 : dupName base ext (n + i) = dupName base ext (n + j) := hij
    have := dupName_inj (by omega) (by omega) hij2
    omega
  have hcard := Finset.card_le_card_of_injOn _ hmaps hinj
  rw [Finset.card_range] at hcard
  have hfin := existing.toFinset_card_le
  omega

theorem genDupAux_spec (existing : List String) (base ext : String) :
    ∀ fuel n : Nat, 1 ≤ n →
      (∃ k, n ≤ k ∧ k ≤ n + fuel ∧ dupName base ext k ∉ existing) →
      ∃ m, n ≤ m ∧ genDupAux existing base ext fuel n = dupName base ext m
        ∧ dupName base ext m ∉ existing
        ∧ ∀ j, n ≤ j → j < m → dupName base ext j ∈ existing := by
  intro fuel
  induction fuel with
  | zero =>
    intro n hn hex
    obtain ⟨k, hk1, hk2, hk3⟩ := hex
    have hkn : k = n := by omega
    subst hkn
    refine ⟨k, le_rfl, rfl, hk3, ?_⟩
    intro j hj1 hj2
    exact absurd hj1 (by omega)
  | succ fuel ih =>
    intro n hn hex
    obtain ⟨k, hk1, hk2, hk3⟩ := hex
    by_cases hmem : dupName base ext n ∈ existing
    · have hkne : k ≠ n := fun he => hk3 (he ▸ hmem)
      obtain ⟨m, hm1, hm2, hm3, hm4⟩ := ih (n + 1) (by omega) ⟨k, by omega, by omega, hk3⟩
      refine ⟨m, by omega, ?_, hm3, ?_⟩
      · simp only [genDupAux]
        rw [if_pos hmem]
        exact hm2
      · intro j hj1 hj2
        rcases Nat.eq_or_lt_of_le hj1 with he | hl
        · exact he ▸ hmem
        · exact hm4 j (by omega) hj2
    · refine ⟨n, le_rfl, ?_, hmem, ?_⟩
      · simp only [genDupAux]
        rw [if_neg hmem]
      · intro j hj1 hj2
        exact absurd hj1 (by omega)

/-- C7 counterexample: with the requested name `b.log` (suffix 1) and
`b(3).log` existing on disk, the highest existing suffix is 3, so the
claim predicts suffix 4; the function instead returns `b(2).log`, the
lowest unused suffix. -/
theorem generateDuplicateFilename_gap_counterexample :
    QLoggerWriter.generateDuplicateFilename
        [dupName "b" "log" 1, dupName "b" "log" 3] "b" "log" = dupName "b" "log" 2
    ∧ dupName "b" "log" 2 ≠ dupName "b" "log" 4
    ∧ dupName "b" "log" 2 = "b(2).log" := by
  decide

/-- C7 (amended): `generateDuplicateFilename` terminates for every finite
set of pre-existing files (it is a total function whose fuel provably
suffices) and returns the candidate with the lowest unused numeric
suffix: the result never collides with an existing file, and every
candidate with a smaller suffix number does. -/
theorem generateDuplicateFilename_lowest_unused (existing : List String)
    (base ext : String) :
    ∃ m, 1 ≤ m
      ∧ QLoggerWriter.generateDuplicateFilename existing base ext = dupName base ext m
      ∧ dupName base ext m ∉ existing
      ∧ ∀ j, 1 ≤ j → j < m → dupName base ext j ∈ existing := by
  obtain ⟨k, hk1, hk2, hk3⟩ := exists_free_suffix existing base ext 1 le_rfl
  exact genDupAux_spec existing base ext (existing.length + 1) 1 le_rfl
    ⟨k, hk1, by omega, hk3⟩

end QLogger
